import Mathlib

/-!
Shallow embedding of the Capability Broker of the loom repository
(src/core/src/action_broker.rs) and proofs of its specified properties.

The proto message types (ActionCall, ActionResult, ActionError, ActionStatus,
CapabilityDescriptor) are generated from proto/action.proto, which is not part
of the sources here; their shapes are modelled from the spec (sections 3 and 6)
and from the field accesses in action_broker.rs.  Byte sequences are modelled
as lists of naturals, string maps as association lists, and the i32 status tag
as a closed inductive with the three constructors the code names.
-/

/-- Modelled from the spec: the structured error record carried by a result
(`error?: { code, message, details: map<string,string> }`).  In the code
`details` defaults to an empty map (`Default::default()`). -/
structure ActionError where
  code : String
  message : String
  details : List (String × String)
deriving DecidableEq

/-- Modelled from the spec: the closed status set `Ok | Error | Timeout`.
Constructor names follow the code (`ActionStatus::ActionError as i32`,
`ActionStatus::ActionTimeout as i32`). -/
inductive ActionStatus where
  | ActionOk
  | ActionError
  | ActionTimeout
deriving DecidableEq

/-- Modelled from the spec:
`ActionCall { id, capability, version, payload: bytes, headers: map<string,string>, timeout_ms: int, correlation_id, qos }`.
`qos` is an enumerated hint, modelled by its integer tag. -/
structure ActionCall where
  id : String
  capability : String
  version : String
  payload : List Nat
  headers : List (String × String)
  timeout_ms : Int
  correlation_id : String
  qos : Int
deriving DecidableEq

/-- Modelled from the spec:
`ActionResult { id, status: Ok|Error|Timeout, output: bytes, error?: {...} }`. -/
structure ActionResult where
  id : String
  status : ActionStatus
  output : List Nat
  error : Option ActionError
deriving DecidableEq

/-- Modelled from the spec:
`CapabilityDescriptor { name, version, provider_kind, metadata: map<string,string> }`.
`provider_kind` is an enumerated tag, modelled by its integer value. -/
structure CapabilityDescriptor where
  name : String
  version : String
  provider_kind : Int
  metadata : List (String × String)
deriving DecidableEq

/-- Modelled from the spec: the crate error type (`crate::LoomError`, defined
outside the sources here).  Only the `PluginError` variant is used by the
broker, for the routing error `Capability not found`. -/
inductive LoomError where
  | PluginError (msg : String)
deriving DecidableEq

/-- The `CapabilityProvider` trait of action_broker.rs.  `descriptor` is the
static descriptor; `invoke` is the asynchronous call body, returning either an
`ActionResult` or a failure on the provider error channel (modelled by the
stringified error, which is all the broker uses: `err.to_string()`).
Real time is not shallow-embeddable, so the outcome of racing the invocation
future against a deadline of `d` milliseconds is modelled by the oracle
`completesWithin call d`: `true` means the future completed before the
deadline, `false` means the deadline elapsed first. -/
structure CapabilityProvider where
  descriptor : CapabilityDescriptor
  invoke : ActionCall → Except String ActionResult
  completesWithin : ActionCall → Int → Bool

/-- The registry field of `ActionBroker`: `DashMap<String, Arc<dyn CapabilityProvider>>`,
mapping capability name to provider, modelled as an association list with at
most one entry per key (maintained by `Registry.insertKV`). -/
abbrev Registry := List (String × CapabilityProvider)

/-- `DashMap::get`: lookup by key. -/
def Registry.get : Registry → String → Option CapabilityProvider
  | [], _ => none
  | (n, p) :: rest, name => if n = name then some p else Registry.get rest name

/-- `DashMap::insert`: bind `name` to `p`, replacing any previous binding for
`name` (a DashMap holds at most one value per key). -/
def Registry.insertKV (r : Registry) (name : String) (p : CapabilityProvider) : Registry :=
  (name, p) :: r.filter (fun e => e.1 ≠ name)

/-- Well-formedness of the registry as maintained by registration: every entry
is stored under the name of its own descriptor, and keys are pairwise
distinct (a map, not a multimap). -/
def Registry.wf (r : Registry) : Prop :=
  (∀ e ∈ r, e.1 = e.2.descriptor.name) ∧ (r.map Prod.fst).Nodup

/-- The `ActionBroker` struct: the registry is its only field. -/
structure ActionBroker where
  registry : Registry

/-- `ActionBroker::new()`. -/
def ActionBroker.new : ActionBroker := { registry := [] }

/-- `ActionBroker::register_provider`: stores the provider under
`provider.descriptor().name`; later registrations with the same name replace
the previous one.  Mutation of `self` is modelled by returning the updated
broker. -/
def ActionBroker.register_provider (b : ActionBroker) (provider : CapabilityProvider) : ActionBroker :=
  { registry := Registry.insertKV b.registry provider.descriptor.name provider }

/-- `ActionBroker::list_capabilities`: the descriptors of all registered
providers. -/
def ActionBroker.list_capabilities (b : ActionBroker) : List CapabilityDescriptor :=
  b.registry.map (fun entry => entry.2.descriptor)

/-- The effective deadline `dur` computed in `invoke` (lines 55 to 59):
`if call.timeout_ms <= 0 { 30_000 } else { call.timeout_ms }`. -/
def ActionBroker.effectiveTimeout (call : ActionCall) : Int :=
  if call.timeout_ms ≤ 0 then 30000 else call.timeout_ms

/-- The argument the broker hands to `provider.invoke` at line 62
(`let fut = provider.invoke(call);`): the caller call, moved unmodified. -/
def ActionBroker.providerArg (call : ActionCall) : ActionCall := call

/-- The result of `timeout(Duration::from_millis(dur as u64), fut).await`:
`some outcome` when the future completed before the deadline (with the
provider outcome), `none` when the deadline elapsed first (`Err(Elapsed)`). -/
def raceDeadline (provider : CapabilityProvider) (call : ActionCall) (dur : Int) :
    Option (Except String ActionResult) :=
  if provider.completesWithin call dur then some (provider.invoke call) else none

/-- The outcome-to-result mapping of `invoke` (lines 63 to 91):
pass a successful provider result through unchanged; wrap a provider-channel
failure as status `ActionError` with code `CAPABILITY_ERROR`; report an
elapsed deadline as status `ActionTimeout` with code `TIMEOUT`.  Both
broker-built results carry the saved `call_id` and an empty output. -/
def ActionBroker.mapOutcome (call_id : String)
    (raced : Option (Except String ActionResult)) : ActionResult :=
  match raced with
  | some (Except.ok res) => res
  | some (Except.error err) =>
      { id := call_id, status := ActionStatus.ActionError, output := [],
        error := some { code := "CAPABILITY_ERROR", message := err, details := [] } }
  | none =>
      { id := call_id, status := ActionStatus.ActionTimeout, output := [],
        error := some { code := "TIMEOUT", message := "Action timed out", details := [] } }

/-- `ActionBroker::invoke` (lines 47 to 92): resolve the capability in the
registry, failing with `LoomError::PluginError("Capability not found: ...")`
when absent; otherwise race the provider invocation against the effective
deadline and map the outcome to an `ActionResult`. -/
def ActionBroker.invoke (b : ActionBroker) (call : ActionCall) : Except LoomError ActionResult :=
  match Registry.get b.registry call.capability with
  | none => Except.error (LoomError.PluginError ("Capability not found: " ++ call.capability))
  | some provider =>
      Except.ok (ActionBroker.mapOutcome call.id
        (raceDeadline provider (ActionBroker.providerArg call) (ActionBroker.effectiveTimeout call)))

/-! ## Helper lemmas -/

/-- When the capability is registered, `invoke` returns the mapped outcome of
racing that provider against the effective deadline. -/
theorem ActionBroker.invoke_registered (b : ActionBroker) (call : ActionCall)
    (p : CapabilityProvider) (hp : Registry.get b.registry call.capability = some p) :
    b.invoke call = Except.ok (ActionBroker.mapOutcome call.id
      (raceDeadline p call (ActionBroker.effectiveTimeout call))) := by
  unfold ActionBroker.invoke
  rw [hp]
  rfl

/-! ## Concrete fixtures used by witnesses and counterexamples -/

/-- A concrete descriptor for test providers. -/
def echoDescriptor : CapabilityDescriptor :=
  { name := "echo", version := "1.0.0", provider_kind := 0, metadata := [] }

/-- A concrete call routed to `echo` with an explicit positive timeout. -/
def echoCall : ActionCall :=
  { id := "call-1", capability := "echo", version := "1.0.0", payload := [104, 105],
    headers := [], timeout_ms := 100, correlation_id := "sess-1", qos := 0 }

/-- A concrete call to an unregistered capability, with `timeout_ms = 0`. -/
def ghostCall : ActionCall :=
  { id := "call-2", capability := "ghost.tool", version := "1.0.0", payload := [],
    headers := [], timeout_ms := 0, correlation_id := "sess-1", qos := 0 }

/-- A well-behaved provider: echoes the call id and payload with status Ok. -/
def okProvider : CapabilityProvider :=
  { descriptor := echoDescriptor,
    invoke := fun call =>
      Except.ok { id := call.id, status := ActionStatus.ActionOk,
                  output := call.payload, error := none },
    completesWithin := fun _ _ => true }

/-- A provider that reports an application-level error as a well-formed
Error-status result on its success channel. -/
def errStatusProvider : CapabilityProvider :=
  { descriptor := echoDescriptor,
    invoke := fun call =>
      Except.ok { id := call.id, status := ActionStatus.ActionError, output := [],
                  error := some { code := "BAD_PAYLOAD", message := "malformed", details := [] } },
    completesWithin := fun _ _ => true }

/-- A provider whose invocation fails on its own error channel. -/
def failProvider : CapabilityProvider :=
  { descriptor := echoDescriptor,
    invoke := fun _ => Except.error "provider exploded",
    completesWithin := fun _ _ => true }

/-- A provider whose invocation never completes within any deadline. -/
def hangProvider : CapabilityProvider :=
  { descriptor := echoDescriptor,
    invoke := fun call =>
      Except.ok { id := call.id, status := ActionStatus.ActionOk, output := [], error := none },
    completesWithin := fun _ _ => false }

/-- A fixed result whose id does not match the call that triggers it. -/
def rogueResult : ActionResult :=
  { id := "someone-else", status := ActionStatus.ActionOk, output := [1], error := none }

/-- A provider that returns `rogueResult` regardless of the call. -/
def rogueProvider : CapabilityProvider :=
  { descriptor := echoDescriptor,
    invoke := fun _ => Except.ok rogueResult,
    completesWithin := fun _ _ => true }

/-- A fixed ill-formed result: status Ok together with a present error. -/
def illFormedResult : ActionResult :=
  { id := "call-1", status := ActionStatus.ActionOk, output := [],
    error := some { code := "X", message := "boom", details := [] } }

/-- A provider that returns `illFormedResult` on its success channel. -/
def illFormedProvider : CapabilityProvider :=
  { descriptor := echoDescriptor,
    invoke := fun _ => Except.ok illFormedResult,
    completesWithin := fun _ _ => true }

/-- A broker holding exactly one registered provider. -/
def brokerWith (p : CapabilityProvider) : ActionBroker :=
  ActionBroker.register_provider ActionBroker.new p

/-! ## Claim theorems -/

/-- Claim C1: `invoke(call)` returns a propagated error if and only if
`call.capability` is not registered in the registry at lookup time; in that
case the error is the routing error, and in every other case `invoke` returns
an `ActionResult` value rather than a propagated failure. -/
theorem invoke_error_iff_capability_unregistered (b : ActionBroker) (call : ActionCall) :
    (Registry.get b.registry call.capability = none →
      b.invoke call = Except.error (LoomError.PluginError ("Capability not found: " ++ call.capability)))
    ∧ ((∃ res, b.invoke call = Except.ok res) ↔ (Registry.get b.registry call.capability).isSome) := by
  cases hget : Registry.get b.registry call.capability with
  | none =>
      refine ⟨fun _ => ?_, ?_⟩
      · unfold ActionBroker.invoke
        rw [hget]
      · simp only [Option.isSome_none, Bool.false_eq_true, iff_false, not_exists]
        intro res hres
        unfold ActionBroker.invoke at hres
        rw [hget] at hres
        exact Except.noConfusion hres
  | some p =>
      refine ⟨fun h => ?_, ?_⟩
      · exact Option.noConfusion h
      · simp only [Option.isSome_some, iff_true]
        exact ⟨_, ActionBroker.invoke_registered b call p hget⟩

/-- Witness for C1 at the concrete unregistered call. -/
theorem invoke_error_iff_capability_unregistered_witness :
    ActionBroker.invoke ActionBroker.new ghostCall
      = Except.error (LoomError.PluginError "Capability not found: ghost.tool") :=
  (invoke_error_iff_capability_unregistered ActionBroker.new ghostCall).1 rfl

/-- Claim C4: when the deadline elapses before the provider invocation
completes, `invoke` returns an `ActionResult` with status Timeout, error code
TIMEOUT, empty output and the call id — not a propagated failure. -/
theorem timeout_branch_result (b : ActionBroker) (call : ActionCall) (p : CapabilityProvider)
    (hp : Registry.get b.registry call.capability = some p)
    (hrace : p.completesWithin call (ActionBroker.effectiveTimeout call) = false) :
    b.invoke call = Except.ok
      { id := call.id, status := ActionStatus.ActionTimeout, output := [],
        error := some { code := "TIMEOUT", message := "Action timed out", details := [] } } := by
  rw [ActionBroker.invoke_registered b call p hp]
  simp [raceDeadline, hrace, ActionBroker.mapOutcome]

/-- Witness for C4: a hanging provider yields the TIMEOUT result. -/
theorem timeout_branch_result_witness :
    ActionBroker.invoke (brokerWith hangProvider) echoCall = Except.ok
      { id := "call-1", status := ActionStatus.ActionTimeout, output := [],
        error := some { code := "TIMEOUT", message := "Action timed out", details := [] } } :=
  timeout_branch_result (brokerWith hangProvider) echoCall hangProvider rfl rfl

/-- Claim C5: when the provider invocation completes before the deadline with
a provider-channel failure, `invoke` returns — does not propagate — an
`ActionResult` with status Error, code CAPABILITY_ERROR, the stringified
failure as message, empty output and the call id. -/
theorem capability_error_branch_result (b : ActionBroker) (call : ActionCall)
    (p : CapabilityProvider) (msg : String)
    (hp : Registry.get b.registry call.capability = some p)
    (hrace : p.completesWithin call (ActionBroker.effectiveTimeout call) = true)
    (hfail : p.invoke call = Except.error msg) :
    b.invoke call = Except.ok
      { id := call.id, status := ActionStatus.ActionError, output := [],
        error := some { code := "CAPABILITY_ERROR", message := msg, details := [] } } := by
  rw [ActionBroker.invoke_registered b call p hp]
  simp [raceDeadline, hrace, hfail, ActionBroker.mapOutcome]

/-- Witness for C5: a provider failing on its error channel yields the
CAPABILITY_ERROR result. -/
theorem capability_error_branch_result_witness :
    ActionBroker.invoke (brokerWith failProvider) echoCall = Except.ok
      { id := "call-1", status := ActionStatus.ActionError, output := [],
        error := some { code := "CAPABILITY_ERROR", message := "provider exploded", details := [] } } :=
  capability_error_branch_result (brokerWith failProvider) echoCall failProvider
    "provider exploded" rfl rfl rfl

/-- Claim C6: the effective deadline equals `call.timeout_ms` when it is
positive and the broker default of 30000 ms otherwise, and it is exactly the
deadline `invoke` races the provider against. -/
theorem effective_timeout_spec (call : ActionCall) :
    (0 < call.timeout_ms → ActionBroker.effectiveTimeout call = call.timeout_ms)
    ∧ (call.timeout_ms ≤ 0 → ActionBroker.effectiveTimeout call = 30000)
    ∧ ∀ (b : ActionBroker) (p : CapabilityProvider),
        Registry.get b.registry call.capability = some p →
        b.invoke call = Except.ok (ActionBroker.mapOutcome call.id
          (raceDeadline p call (ActionBroker.effectiveTimeout call))) := by
  refine ⟨fun h => ?_, fun h => ?_, fun b p hp => ActionBroker.invoke_registered b call p hp⟩
  · unfold ActionBroker.effectiveTimeout
    rw [if_neg (by omega)]
  · unfold ActionBroker.effectiveTimeout
    rw [if_pos h]

/-- Witness for C6 at a positive and at a non-positive timeout. -/
theorem effective_timeout_spec_witness :
    ActionBroker.effectiveTimeout echoCall = 100
    ∧ ActionBroker.effectiveTimeout ghostCall = 30000
    ∧ ActionBroker.invoke (brokerWith hangProvider) echoCall
        = Except.ok (ActionBroker.mapOutcome echoCall.id
            (raceDeadline hangProvider echoCall (ActionBroker.effectiveTimeout echoCall))) :=
  ⟨(effective_timeout_spec echoCall).1 (by decide),
   (effective_timeout_spec ghostCall).2.1 (by decide),
   (effective_timeout_spec echoCall).2.2 (brokerWith hangProvider) hangProvider rfl⟩

/-- Claim C7: when the provider invocation completes before the deadline on
its success channel, `invoke` returns exactly that `ActionResult`, unchanged
in every field — including a provider-reported Error-status result. -/
theorem success_passthrough_unchanged (b : ActionBroker) (call : ActionCall)
    (p : CapabilityProvider) (res : ActionResult)
    (hp : Registry.get b.registry call.capability = some p)
    (hrace : p.completesWithin call (ActionBroker.effectiveTimeout call) = true)
    (hok : p.invoke call = Except.ok res) :
    b.invoke call = Except.ok res := by
  rw [ActionBroker.invoke_registered b call p hp]
  simp [raceDeadline, hrace, hok, ActionBroker.mapOutcome]

/-- Witness for C7: an Error-status provider result is passed through
unchanged, error field and all. -/
theorem success_passthrough_unchanged_witness :
    ActionBroker.invoke (brokerWith errStatusProvider) echoCall = Except.ok
      { id := "call-1", status := ActionStatus.ActionError, output := [],
        error := some { code := "BAD_PAYLOAD", message := "malformed", details := [] } } :=
  success_passthrough_unchanged (brokerWith errStatusProvider) echoCall errStatusProvider
    _ rfl rfl rfl

/-- The result okProvider produces for echoCall. -/
def okResult : ActionResult :=
  { id := "call-1", status := ActionStatus.ActionOk, output := [104, 105], error := none }

/-- Counterexample to claim C2 as stated: on the success channel the broker
passes the provider result through unchanged, so the returned id is the
provider-chosen one, which need not equal the call id. -/
theorem id_echo_counterexample :
    ActionBroker.invoke (brokerWith rogueProvider) echoCall = Except.ok rogueResult
    ∧ rogueResult.id ≠ echoCall.id := by
  exact ⟨rfl, by decide⟩

/-- Claim C2 (amended): for every accepted call, broker-built results (the
CAPABILITY_ERROR wrap and the TIMEOUT report) carry the call id, and the
pass-through result carries the call id whenever the provider result does,
so id echo holds in every status branch for providers that echo the id. -/
theorem id_echo_amended (b : ActionBroker) (call : ActionCall) (p : CapabilityProvider)
    (res : ActionResult)
    (hp : Registry.get b.registry call.capability = some p)
    (hecho : ∀ r, p.invoke call = Except.ok r → r.id = call.id)
    (hres : b.invoke call = Except.ok res) :
    res.id = call.id := by
  rw [ActionBroker.invoke_registered b call p hp] at hres
  unfold raceDeadline at hres
  cases hcw : p.completesWithin call (ActionBroker.effectiveTimeout call) with
  | false =>
      rw [hcw] at hres
      simp only [Bool.false_eq_true, if_false, ActionBroker.mapOutcome, Except.ok.injEq] at hres
      rw [← hres]
  | true =>
      rw [hcw] at hres
      simp only [if_true, ActionBroker.mapOutcome] at hres
      cases hpi : p.invoke call with
      | ok r =>
          rw [hpi] at hres
          simp only [Except.ok.injEq] at hres
          rw [← hres]
          exact hecho r hpi
      | error e =>
          rw [hpi] at hres
          simp only [Except.ok.injEq] at hres
          rw [← hres]

/-- Witness for the amended C2 with an id-echoing provider. -/
theorem id_echo_amended_witness : okResult.id = echoCall.id :=
  id_echo_amended (brokerWith okProvider) echoCall okProvider okResult rfl
    (fun r h => by cases h; rfl) rfl

/-- Counterexample to claim C3 as stated: the broker passes through a provider
result that has status Ok together with a present error field. -/
theorem status_invariant_counterexample :
    ActionBroker.invoke (brokerWith illFormedProvider) echoCall = Except.ok illFormedResult
    ∧ illFormedResult.status = ActionStatus.ActionOk
    ∧ illFormedResult.error ≠ none := by
  exact ⟨rfl, rfl, by decide⟩

/-- Claim C3 (amended): broker-built results satisfy the invariant, and a
pass-through result satisfies it whenever the provider result does; hence if
every success-channel result of the provider at this call satisfies
`status = Ok iff error absent` and `status other than Ok iff output empty`,
so does every result `invoke` returns. -/
theorem status_invariant_amended (b : ActionBroker) (call : ActionCall)
    (p : CapabilityProvider) (res : ActionResult)
    (hp : Registry.get b.registry call.capability = some p)
    (hwb : ∀ r, p.invoke call = Except.ok r →
        ((r.status = ActionStatus.ActionOk ↔ r.error = none)
          ∧ (r.status ≠ ActionStatus.ActionOk ↔ r.output = [])))
    (hres : b.invoke call = Except.ok res) :
    (res.status = ActionStatus.ActionOk ↔ res.error = none)
    ∧ (res.status ≠ ActionStatus.ActionOk ↔ res.output = []) := by
  rw [ActionBroker.invoke_registered b call p hp] at hres
  unfold raceDeadline at hres
  cases hcw : p.completesWithin call (ActionBroker.effectiveTimeout call) with
  | false =>
      rw [hcw] at hres
      simp only [Bool.false_eq_true, if_false, ActionBroker.mapOutcome, Except.ok.injEq] at hres
      rw [← hres]
      constructor <;> simp
  | true =>
      rw [hcw] at hres
      simp only [if_true, ActionBroker.mapOutcome] at hres
      cases hpi : p.invoke call with
      | ok r =>
          rw [hpi] at hres
          simp only [Except.ok.injEq] at hres
          rw [← hres]
          exact hwb r hpi
      | error e =>
          rw [hpi] at hres
          simp only [Except.ok.injEq] at hres
          rw [← hres]
          constructor <;> simp

/-- Witness for the amended C3 with a well-behaved provider. -/
theorem status_invariant_amended_witness :
    (okResult.status = ActionStatus.ActionOk ↔ okResult.error = none)
    ∧ (okResult.status ≠ ActionStatus.ActionOk ↔ okResult.output = []) :=
  status_invariant_amended (brokerWith okProvider) echoCall okProvider okResult rfl
    (fun r h => by cases h; constructor <;> simp [okProvider, echoCall]) rfl

/-! ## Registry lemmas -/

/-- Unfolding equation for lookup at a cons cell. -/
theorem Registry.get_cons (m : String) (q : CapabilityProvider) (tl : Registry) (n : String) :
    Registry.get ((m, q) :: tl) n = if m = n then some q else Registry.get tl n := rfl

/-- An insert is found under its own key. -/
theorem Registry.get_insertKV_self (r : Registry) (name : String) (p : CapabilityProvider) :
    Registry.get (Registry.insertKV r name p) name = some p := by
  unfold Registry.insertKV
  rw [Registry.get_cons, if_pos rfl]

/-- Filtering out one key leaves lookups of any other key unchanged. -/
theorem Registry.get_filter_ne (r : Registry) (name n : String) (hne : n ≠ name) :
    Registry.get (r.filter (fun e => e.1 ≠ name)) n = Registry.get r n := by
  induction r with
  | nil => rfl
  | cons hd tl ih =>
      obtain ⟨m, q⟩ := hd
      by_cases hm : m = name
      · subst hm
        rw [List.filter_cons_of_neg (by simp), ih, Registry.get_cons,
          if_neg (Ne.symm hne)]
      · rw [List.filter_cons_of_pos (by simp [hm]), Registry.get_cons,
          Registry.get_cons, ih]

/-- An insert leaves lookups of any other key unchanged. -/
theorem Registry.get_insertKV_ne (r : Registry) (name n : String) (p : CapabilityProvider)
    (hne : n ≠ name) :
    Registry.get (Registry.insertKV r name p) n = Registry.get r n := by
  unfold Registry.insertKV
  rw [Registry.get_cons, if_neg (Ne.symm hne)]
  exact Registry.get_filter_ne r name n hne

/-- Registration preserves well-formedness of the registry. -/
theorem Registry.wf_insert (r : Registry) (p : CapabilityProvider) (hwf : Registry.wf r) :
    Registry.wf (Registry.insertKV r p.descriptor.name p) := by
  obtain ⟨hnames, hnodup⟩ := hwf
  constructor
  · intro e he
    rcases List.mem_cons.mp he with h | h
    · subst h; rfl
    · exact hnames e (List.mem_of_mem_filter h)
  · rw [Registry.insertKV, List.map_cons, List.nodup_cons]
    constructor
    · intro hmem
      obtain ⟨e, hef, hfst⟩ := List.mem_map.mp hmem
      have hne := List.of_mem_filter hef
      simp only [ne_eq, decide_not, Bool.not_eq_eq_eq_not, Bool.not_true,
        decide_eq_false_iff_not] at hne
      exact hne hfst
    · exact hnodup.sublist ((List.filter_sublist r).map Prod.fst)

/-- A successful lookup comes from an entry of the registry. -/
theorem Registry.get_mem (r : Registry) (n : String) (q : CapabilityProvider)
    (h : Registry.get r n = some q) : (n, q) ∈ r := by
  induction r with
  | nil => cases h
  | cons hd tl ih =>
      obtain ⟨m, p⟩ := hd
      unfold Registry.get at h
      by_cases hm : m = n
      · rw [if_pos hm] at h
        injection h with h
        subst hm
        subst h
        exact List.mem_cons_self _ _
      · rw [if_neg hm] at h
        exact List.mem_cons_of_mem _ (ih h)

/-- In a well-formed registry the descriptor names of the entries are the keys,
hence pairwise distinct. -/
theorem Registry.list_names_nodup (r : Registry) (hwf : Registry.wf r) :
    (r.map (fun e => e.2.descriptor.name)).Nodup := by
  obtain ⟨hnames, hnodup⟩ := hwf
  have hmap : r.map (fun e => e.2.descriptor.name) = r.map Prod.fst := by
    apply List.map_congr_left
    intro e he
    exact (hnames e he).symm
  rw [hmap]
  exact hnodup

/-- The singleton registry of `brokerWith okProvider` is well formed. -/
theorem wf_brokerWith_ok : Registry.wf (brokerWith okProvider).registry := by
  constructor
  · intro e he
    rcases List.mem_singleton.mp he with h
    subst h
    rfl
  · simp [brokerWith, ActionBroker.register_provider, ActionBroker.new, Registry.insertKV]

/-- Claim C8: the registry binds at most one provider per capability name:
registration stores the provider under its descriptor name and replaces any
prior binding (leaving other names untouched), a subsequent invoke with that
name dispatches to the most recently registered provider, registration
preserves key uniqueness, the capability listing holds one descriptor per
registered name, and every resolvable name contributes its descriptor to the
listing. -/
theorem registry_single_binding_per_name (b : ActionBroker) (p p2 : CapabilityProvider)
    (call : ActionCall) (n m : String) (q : CapabilityProvider) :
    (Registry.get (b.register_provider p).registry p.descriptor.name = some p)
    ∧ (n ≠ p.descriptor.name →
        Registry.get (b.register_provider p).registry n = Registry.get b.registry n)
    ∧ (p.descriptor.name = p2.descriptor.name → call.capability = p2.descriptor.name →
        ((b.register_provider p).register_provider p2).invoke call
          = Except.ok (ActionBroker.mapOutcome call.id
              (raceDeadline p2 call (ActionBroker.effectiveTimeout call))))
    ∧ (Registry.wf b.registry → Registry.wf (b.register_provider p).registry)
    ∧ (Registry.wf b.registry →
        ((b.register_provider p).list_capabilities.map CapabilityDescriptor.name).Nodup)
    ∧ (Registry.get b.registry m = some q → q.descriptor ∈ b.list_capabilities) := by
  refine ⟨Registry.get_insertKV_self _ _ _, ?_, ?_, ?_, ?_, ?_⟩
  · intro hne
    exact Registry.get_insertKV_ne _ _ _ _ hne
  · intro _ hcap
    refine ActionBroker.invoke_registered _ call p2 ?_
    rw [hcap]
    exact Registry.get_insertKV_self _ _ _
  · intro hwf
    exact Registry.wf_insert _ _ hwf
  · intro hwf
    unfold ActionBroker.list_capabilities
    rw [List.map_map]
    exact Registry.list_names_nodup _ (Registry.wf_insert _ _ hwf)
  · intro hget
    exact List.mem_map.mpr ⟨(m, q), Registry.get_mem _ _ _ hget, rfl⟩

/-- Witness for C8: okProvider registered, replaced by rogueProvider under the
same name, then registered again; all six conjuncts instantiated. -/
theorem registry_single_binding_per_name_witness :
    (Registry.get ((brokerWith okProvider).register_provider rogueProvider).registry "echo"
        = some rogueProvider)
    ∧ (Registry.get ((brokerWith okProvider).register_provider rogueProvider).registry "ghost.tool"
        = Registry.get (brokerWith okProvider).registry "ghost.tool")
    ∧ ((((brokerWith okProvider).register_provider rogueProvider).register_provider okProvider).invoke echoCall
        = Except.ok (ActionBroker.mapOutcome echoCall.id
            (raceDeadline okProvider echoCall (ActionBroker.effectiveTimeout echoCall))))
    ∧ Registry.wf ((brokerWith okProvider).register_provider rogueProvider).registry
    ∧ ((((brokerWith okProvider).register_provider rogueProvider).list_capabilities.map
          CapabilityDescriptor.name).Nodup)
    ∧ okProvider.descriptor ∈ (brokerWith okProvider).list_capabilities := by
  have h := registry_single_binding_per_name (brokerWith okProvider) rogueProvider okProvider
    echoCall "ghost.tool" "echo" okProvider
  exact ⟨h.1, h.2.1 (by decide), h.2.2.1 rfl rfl, h.2.2.2.1 wf_brokerWith_ok,
    h.2.2.2.2.1 wf_brokerWith_ok, h.2.2.2.2.2 rfl⟩

/-- Claim C9: routing, the effective deadline and the outcome-to-result
mapping of the broker are independent of the version and qos fields of a
call; in particular two calls differing only there, dispatched to a provider
that does not itself distinguish them, produce identical invoke results. -/
theorem broker_independent_of_version_qos (x y : ActionCall)
    (hid : x.id = y.id) (hcap : x.capability = y.capability)
    (hpay : x.payload = y.payload) (hhdr : x.headers = y.headers)
    (hto : x.timeout_ms = y.timeout_ms) (hcor : x.correlation_id = y.correlation_id) :
    (∀ r : Registry, Registry.get r x.capability = Registry.get r y.capability)
    ∧ ActionBroker.effectiveTimeout x = ActionBroker.effectiveTimeout y
    ∧ (∀ raced, ActionBroker.mapOutcome x.id raced = ActionBroker.mapOutcome y.id raced)
    ∧ ∀ b : ActionBroker,
        (∀ p, Registry.get b.registry y.capability = some p →
            p.invoke x = p.invoke y
            ∧ p.completesWithin x (ActionBroker.effectiveTimeout x)
              = p.completesWithin y (ActionBroker.effectiveTimeout y)) →
        b.invoke x = b.invoke y := by
  have hdur : ActionBroker.effectiveTimeout x = ActionBroker.effectiveTimeout y := by
    unfold ActionBroker.effectiveTimeout
    rw [hto]
  refine ⟨fun r => by rw [hcap], hdur, fun raced => by rw [hid], fun b hb => ?_⟩
  unfold ActionBroker.invoke
  rw [hcap]
  cases hget : Registry.get b.registry y.capability with
  | none => rfl
  | some p =>
      obtain ⟨hi, hc⟩ := hb p hget
      show Except.ok (ActionBroker.mapOutcome x.id
          (raceDeadline p (ActionBroker.providerArg x) (ActionBroker.effectiveTimeout x)))
        = Except.ok (ActionBroker.mapOutcome y.id
          (raceDeadline p (ActionBroker.providerArg y) (ActionBroker.effectiveTimeout y)))
      unfold ActionBroker.providerArg raceDeadline
      rw [hid, hi, hc]

/-- A call identical to echoCall except for its version and qos fields. -/
def echoCallAlt : ActionCall :=
  { echoCall with version := "9.9.9", qos := 3 }

/-- Witness for C9: echoCall and echoCallAlt yield identical invoke results
against okProvider. -/
theorem broker_independent_of_version_qos_witness :
    ActionBroker.invoke (brokerWith okProvider) echoCall
      = ActionBroker.invoke (brokerWith okProvider) echoCallAlt := by
  have h := broker_independent_of_version_qos echoCall echoCallAlt rfl rfl rfl rfl rfl rfl
  refine h.2.2.2 (brokerWith okProvider) ?_
  intro p hp
  have hp2 : some okProvider = some p := hp
  injection hp2 with hp2
  subst hp2
  exact ⟨rfl, rfl⟩

/-- Claim C10: the broker passes the ActionCall to the provider invoke
completely unmodified — every field reaches the provider exactly as supplied,
and in particular timeout_ms is not rewritten to the effective deadline; the
dispatch path applies the provider to exactly this argument. -/
theorem call_forwarded_unmodified (call : ActionCall) :
    ActionBroker.providerArg call = call
    ∧ (ActionBroker.providerArg call).id = call.id
    ∧ (ActionBroker.providerArg call).capability = call.capability
    ∧ (ActionBroker.providerArg call).version = call.version
    ∧ (ActionBroker.providerArg call).payload = call.payload
    ∧ (ActionBroker.providerArg call).headers = call.headers
    ∧ (ActionBroker.providerArg call).timeout_ms = call.timeout_ms
    ∧ (ActionBroker.providerArg call).correlation_id = call.correlation_id
    ∧ (ActionBroker.providerArg call).qos = call.qos
    ∧ ∀ (b : ActionBroker) (p : CapabilityProvider),
        Registry.get b.registry call.capability = some p →
        b.invoke call = Except.ok (ActionBroker.mapOutcome call.id
          (raceDeadline p (ActionBroker.providerArg call) (ActionBroker.effectiveTimeout call))) := by
  refine ⟨rfl, rfl, rfl, rfl, rfl, rfl, rfl, rfl, rfl, fun b p hp => ?_⟩
  unfold ActionBroker.invoke
  rw [hp]

/-- Witness for C10 at the registered concrete call. -/
theorem call_forwarded_unmodified_witness :
    ActionBroker.invoke (brokerWith okProvider) echoCall
      = Except.ok (ActionBroker.mapOutcome echoCall.id
          (raceDeadline okProvider (ActionBroker.providerArg echoCall)
            (ActionBroker.effectiveTimeout echoCall))) :=
  (call_forwarded_unmodified echoCall).2.2.2.2.2.2.2.2.2 (brokerWith okProvider) okProvider rfl
